import Mathlib

/-!
Verification of the speaker-selection / turn-taking pattern of the
`autogen` example notebooks.

The central artifact under `src/` is the `state_transition` callback of
`notebook.py/agentchat_groupchat_stateflow.py`, which routes a four-agent
group chat (`initializer`, `coder`, `executor`, `scientist`).  The
surrounding turn loop (`GroupChat`/`GroupChatManager`) and the transcript
data structure live in the framework part of the repository that is not
included under `src/`; where a claim depends on them they are modelled
from the spec, and each such definition says so in its doc comment.

The currency-calculator example
(`notebook.py/agentchat_function_call_currency_calculator.py`) is embedded
twice: once with exact rational arithmetic, which suffices for the branch
structure and the `ValueError` path (their conditions are string
comparisons only), and once under bit-accurate IEEE binary64
round-to-nearest-even semantics (`Currency.Double`), which captures the
rounding of the program's float arithmetic where rounding is what the
property is about.
-/

namespace Stateflow

/-- The agents of the stateflow group chat.  The four named constructors
are the four agent objects created in the notebook (Python compares them
with `is`, i.e. object identity); `other` stands for any further agent
the framework could hand to the callback. -/
inductive Speaker where
  | initializer
  | coder
  | executor
  | scientist
  | other (name : String)
deriving DecidableEq, Repr

/-- A chat message as seen by `state_transition`; the callback reads only
`messages[-1]["content"]`, so the content field is all we model. -/
structure Message where
  content : String
deriving DecidableEq, Repr

/-- Python `last_speaker == "Scientist"` compares an `Agent` object with a
`str`.  `Agent` defines no `__eq__` accepting strings, so the comparison
is `False` for every agent the framework can pass in. -/
def agentEqNameStr (_last_speaker : Speaker) (_name : String) : Bool :=
  false

/-- Shallow embedding of `state_transition(last_speaker, groupchat)` from
`agentchat_groupchat_stateflow.py` (lines 109-127).  `groupchat.messages`
is passed as the list of messages.  `.ok none` is Python `return None`
(terminate); the `.error` case is the `IndexError` that `messages[-1]`
raises on an empty list.  The final `.ok none` is the implicit `None` a
Python function returns when it falls off the end. -/
def state_transition (last_speaker : Speaker) (messages : List Message) :
    Except String (Option Speaker) :=
  if last_speaker = Speaker.initializer then
    -- init -> retrieve
    .ok (some Speaker.coder)
  else if last_speaker = Speaker.coder then
    -- retrieve: action 1 -> action 2
    .ok (some Speaker.executor)
  else if last_speaker = Speaker.executor then
    match messages.getLast? with
    | none => .error "IndexError: list index out of range"
    | some m =>
      if m.content = "exitcode: 1" then
        -- retrieve --(execution failed)--> retrieve
        .ok (some Speaker.coder)
      else
        -- retrieve --(execution sucess)--> research
        .ok (some Speaker.scientist)
  else if agentEqNameStr last_speaker "Scientist" then
    -- research -> end
    .ok none
  else
    .ok none

/-- The termination sentinel used throughout the examples
(`is_termination_msg` checks for the literal marker `"TERMINATE"`). -/
def terminationSentinel : String := "TERMINATE"

end Stateflow

namespace Stateflow

/-- C1: the stateflow routing table of `state_transition`:
initializer → coder, coder → executor, executor → coder when the last
message is exactly `"exitcode: 1"` and → scientist otherwise, and the
scientist's turn ends the chat (no next speaker). -/
theorem state_transition_routes (messages : List Message) :
    state_transition Speaker.initializer messages = .ok (some Speaker.coder)
    ∧ state_transition Speaker.coder messages = .ok (some Speaker.executor)
    ∧ (∀ m, messages.getLast? = some m →
        (m.content = "exitcode: 1" →
          state_transition Speaker.executor messages
            = .ok (some Speaker.coder))
        ∧ (m.content ≠ "exitcode: 1" →
          state_transition Speaker.executor messages
            = .ok (some Speaker.scientist)))
    ∧ state_transition Speaker.scientist messages = .ok none := by
  refine ⟨rfl, rfl, ?_, rfl⟩
  intro m hm
  constructor
  · intro hc
    simp [state_transition, hm, hc]
  · intro hc
    simp [state_transition, hm, hc]

/-- Witness for C1 on a concrete transcript ending in `"exitcode: 1"`. -/
theorem state_transition_routes_witness :
    state_transition Speaker.executor [⟨"exitcode: 1"⟩]
      = .ok (some Speaker.coder) :=
  ((state_transition_routes [⟨"exitcode: 1"⟩]).2.2.1 ⟨"exitcode: 1"⟩ rfl).1
    rfl

/-- C2 counterexample: a transcript whose last message is the termination
sentinel does not make `state_transition` terminate when the initializer
spoke last — the coder is selected instead. -/
theorem state_transition_ignores_sentinel :
    state_transition Speaker.initializer [⟨terminationSentinel⟩]
        = .ok (some Speaker.coder)
      ∧ state_transition Speaker.initializer [⟨terminationSentinel⟩]
        ≠ .ok none := by
  exact ⟨rfl, fun h => Option.noConfusion (Except.ok.inj h)⟩

/-- C2 amended: `state_transition` never inspects the transcript for a
termination sentinel.  On a transcript ending in the sentinel it still
routes initializer → coder, coder → executor and executor → scientist
(the sentinel differs from `"exitcode: 1"`); it returns terminate only
when the last speaker is the scientist or matches no branch. -/
theorem state_transition_sentinel_amended (messages : List Message)
    (hlast : messages.getLast? = some ⟨terminationSentinel⟩) :
    state_transition Speaker.initializer messages = .ok (some Speaker.coder)
    ∧ state_transition Speaker.coder messages = .ok (some Speaker.executor)
    ∧ state_transition Speaker.executor messages
        = .ok (some Speaker.scientist)
    ∧ state_transition Speaker.scientist messages = .ok none := by
  refine ⟨rfl, rfl, ?_, rfl⟩
  simp [state_transition, hlast, terminationSentinel]

/-- Witness for the amended C2 at a concrete one-message transcript. -/
theorem state_transition_sentinel_amended_witness :
    state_transition Speaker.executor [⟨terminationSentinel⟩]
      = .ok (some Speaker.scientist) :=
  (state_transition_sentinel_amended [⟨terminationSentinel⟩] rfl).2.2.1

/-- C3: any speaker that is not the initializer, coder or executor (the
scientist included, since the `== "Scientist"` branch compares an agent
with a string and never fires) matches no classification branch, and the
function falls through to `return None` — it fails closed. -/
theorem state_transition_fails_closed (s : Speaker) (messages : List Message)
    (h1 : s ≠ Speaker.initializer) (h2 : s ≠ Speaker.coder)
    (h3 : s ≠ Speaker.executor) :
    state_transition s messages = .ok none := by
  simp [state_transition, h1, h2, h3, agentEqNameStr]

/-- Witness for C3 at an unexpected speaker on a nonempty transcript. -/
theorem state_transition_fails_closed_witness :
    state_transition (Speaker.other "Intruder") [⟨"hello"⟩] = .ok none :=
  state_transition_fails_closed (Speaker.other "Intruder") [⟨"hello"⟩]
    (by decide) (by decide) (by decide)

/-- C4: `state_transition` is deterministic — two invocations on the same
last speaker and the same transcript prefix return the same result. -/
theorem state_transition_deterministic (s₁ s₂ : Speaker)
    (m₁ m₂ : List Message) (hs : s₁ = s₂) (hm : m₁ = m₂) :
    state_transition s₁ m₁ = state_transition s₂ m₂ := by
  rw [hs, hm]

/-- Witness for C4 at a concrete invocation pair. -/
theorem state_transition_deterministic_witness :
    state_transition Speaker.coder [⟨"x"⟩]
      = state_transition Speaker.coder [⟨"x"⟩] :=
  state_transition_deterministic Speaker.coder Speaker.coder
    [⟨"x"⟩] [⟨"x"⟩] rfl rfl

/-- C5 counterexample: on the empty transcript `state_transition` does not
return the designated initiator — with the initializer recorded as the
last speaker it selects the coder, not the initializer. -/
theorem state_transition_empty_not_initiator :
    state_transition Speaker.initializer [] = .ok (some Speaker.coder)
    ∧ state_transition Speaker.initializer []
        ≠ .ok (some Speaker.initializer) :=
  ⟨rfl, fun h => Speaker.noConfusion (Option.some.inj (Except.ok.inj h))⟩

/-- C5 amended: `state_transition` has no empty-transcript case and never
returns the initializer.  On the empty transcript it selects the coder
after the initializer, the executor after the coder, raises `IndexError`
after the executor (`messages[-1]` on an empty list), and terminates
after the scientist; the designated-initiator edge case the spec
describes is handled outside this function, by the framework's
speaker-selection entry point. -/
theorem state_transition_empty :
    state_transition Speaker.initializer [] = .ok (some Speaker.coder)
    ∧ state_transition Speaker.coder [] = .ok (some Speaker.executor)
    ∧ state_transition Speaker.executor []
        = .error "IndexError: list index out of range"
    ∧ state_transition Speaker.scientist [] = .ok none :=
  ⟨rfl, rfl, rfl, rfl⟩

end Stateflow

namespace Stateflow

/-- A transcript entry per the spec's data model:
`{ speaker, content, sequence_number }`. -/
structure Turn where
  speaker : Speaker
  content : String
  sequence_number : Nat
deriving DecidableEq, Repr

/-- Modelled from the spec: the Conversation State
`{ transcript, round_count, max_rounds, terminated }` of the turn loop
(the framework's `GroupChat`/`GroupChatManager` run loop is not under
`src/`; the notebook only configures it with `max_round=20`).  The
termination reason records the spec's result "transcript + termination
reason". -/
structure ConversationState where
  transcript : List Turn
  round_count : Nat
  max_rounds : Nat
  terminated : Bool
  termination_reason : Option String
deriving DecidableEq, Repr

/-- Loop state: the conversation state plus the last speaker, which the
speaker-selection policy is consulted with. -/
structure LoopState where
  conv : ConversationState
  last_speaker : Speaker
deriving DecidableEq, Repr

/-- Modelled from the spec: one iteration of the turn loop.  The round
cap is a cancellation signal "checked between turns"; then the
Speaker-Selection Policy (here a pure `Option`-valued function, `none`
meaning terminate) picks the next speaker, who produces a reply that is
appended as a new `Turn`.  A terminated state is left untouched. -/
def step (reply : Speaker → List Turn → String)
    (policy : Speaker → List Turn → Option Speaker)
    (st : LoopState) : LoopState :=
  if st.conv.terminated then st
  else if st.conv.max_rounds ≤ st.conv.round_count then
    { st with conv := { st.conv with
        terminated := true,
        termination_reason := some "round-limit-reached" } }
  else
    match policy st.last_speaker st.conv.transcript with
    | none =>
      { st with conv := { st.conv with
          terminated := true,
          termination_reason := some "policy-terminated" } }
    | some sp =>
      { conv := { st.conv with
          transcript := st.conv.transcript
            ++ [⟨sp, reply sp st.conv.transcript, st.conv.transcript.length⟩],
          round_count := st.conv.round_count + 1 },
        last_speaker := sp }

/-- Modelled from the spec: the state after seeding — the transcript holds
the initial message attributed to the initiator (sequence number 0), which
counts as the first round, matching the framework's `max_round` counting
every message including the initial one. -/
def initState (initiator : Speaker) (initial_message : String)
    (max_rounds : Nat) : LoopState :=
  { conv :=
      { transcript := [⟨initiator, initial_message, 0⟩],
        round_count := 1,
        max_rounds := max_rounds,
        terminated := false,
        termination_reason := none },
    last_speaker := initiator }

/-- Fuel-indexed iteration of `step`. -/
def runLoop (reply : Speaker → List Turn → String)
    (policy : Speaker → List Turn → Option Speaker) :
    Nat → LoopState → LoopState
  | 0, st => st
  | Nat.succ fuel, st => runLoop reply policy fuel (step reply policy st)

/-- Modelled from the spec: `run(initial_message, participants, max_rounds)`
— seed the transcript, then iterate the turn loop; `max_rounds` steps of
fuel always suffice because each step either terminates or increments
`round_count`, which starts at 1 and is capped at `max_rounds`. -/
def run (reply : Speaker → List Turn → String)
    (policy : Speaker → List Turn → Option Speaker)
    (initiator : Speaker) (initial_message : String) (max_rounds : Nat) :
    LoopState :=
  runLoop reply policy max_rounds (initState initiator initial_message max_rounds)

/-- The states the turn loop can actually be in: the seeded initial state
(for a positive round cap, per the spec's "positive integer round cap")
and anything reachable from it by `step`. -/
inductive Reachable (reply : Speaker → List Turn → String)
    (policy : Speaker → List Turn → Option Speaker) : LoopState → Prop where
  | init (initiator : Speaker) (msg : String) (max_rounds : Nat)
      (hpos : 1 ≤ max_rounds) :
      Reachable reply policy (initState initiator msg max_rounds)
  | next (st : LoopState) : Reachable reply policy st →
      Reachable reply policy (step reply policy st)

/-- `step` preserves the round bound. -/
theorem step_round_le (reply : Speaker → List Turn → String)
    (policy : Speaker → List Turn → Option Speaker) (st : LoopState)
    (h : st.conv.round_count ≤ st.conv.max_rounds) :
    (step reply policy st).conv.round_count
      ≤ (step reply policy st).conv.max_rounds := by
  unfold step
  by_cases ht : st.conv.terminated
  · simpa [ht] using h
  · by_cases hr : st.conv.max_rounds ≤ st.conv.round_count
    · simpa [ht, hr] using h
    · cases hpol : policy st.last_speaker st.conv.transcript with
      | none => simpa [ht, hr, hpol] using h
      | some sp =>
        simp only [ht, hr, hpol, Bool.false_eq_true, if_false, if_neg]
        omega

end Stateflow

namespace Stateflow

/-- C6: in every reachable state of the turn loop, `round_count` is
bounded by `max_rounds`, and once the `terminated` flag is set a further
`step` appends no `Turn` — the transcript is left unchanged. -/
theorem conversation_invariant (reply : Speaker → List Turn → String)
    (policy : Speaker → List Turn → Option Speaker) (st : LoopState)
    (h : Reachable reply policy st) :
    st.conv.round_count ≤ st.conv.max_rounds
    ∧ (st.conv.terminated = true →
        (step reply policy st).conv.transcript = st.conv.transcript) := by
  refine ⟨?_, fun hterm => by simp [step, hterm]⟩
  induction h with
  | init initiator msg max_rounds hpos => simpa [initState] using hpos
  | next st' h' ih => exact step_round_le reply policy st' ih

/-- Witness for C6 at the seeded state of a one-round conversation. -/
theorem conversation_invariant_witness :
    (initState Speaker.initializer "" 1).conv.round_count
      ≤ (initState Speaker.initializer "" 1).conv.max_rounds :=
  (conversation_invariant (fun _ _ => "") (fun _ _ => none)
    (initState Speaker.initializer "" 1)
    (Reachable.init Speaker.initializer "" 1 (by decide))).1

/-- C7: with `max_rounds = 3` and a policy that never returns terminate,
the run ends with exactly 3 turns in the transcript, the terminated flag
set, termination reason `"round-limit-reached"`, and a further step
changes nothing. -/
theorem run_round_limit (reply : Speaker → List Turn → String)
    (policy : Speaker → List Turn → Option Speaker)
    (initiator : Speaker) (msg : String)
    (hp : ∀ s t, policy s t ≠ none) :
    (run reply policy initiator msg 3).conv.transcript.length = 3
    ∧ (run reply policy initiator msg 3).conv.terminated = true
    ∧ (run reply policy initiator msg 3).conv.termination_reason
        = some "round-limit-reached"
    ∧ step reply policy (run reply policy initiator msg 3)
        = run reply policy initiator msg 3 := by
  obtain ⟨s₁, hs₁⟩ :=
    Option.ne_none_iff_exists'.mp (hp initiator [⟨initiator, msg, 0⟩])
  obtain ⟨s₂, hs₂⟩ := Option.ne_none_iff_exists'.mp
    (hp s₁ [⟨initiator, msg, 0⟩, ⟨s₁, reply s₁ [⟨initiator, msg, 0⟩], 1⟩])
  simp [run, runLoop, step, initState, hs₁, hs₂]

/-- Witness for C7 with a constant policy that always picks the coder. -/
theorem run_round_limit_witness :
    (run (fun _ _ => "") (fun _ _ => some Speaker.coder)
        Speaker.initializer "go" 3).conv.transcript.length = 3
    ∧ (run (fun _ _ => "") (fun _ _ => some Speaker.coder)
        Speaker.initializer "go" 3).conv.terminated = true
    ∧ (run (fun _ _ => "") (fun _ _ => some Speaker.coder)
        Speaker.initializer "go" 3).conv.termination_reason
        = some "round-limit-reached"
    ∧ step (fun _ _ => "") (fun _ _ => some Speaker.coder)
        (run (fun _ _ => "") (fun _ _ => some Speaker.coder)
          Speaker.initializer "go" 3)
        = run (fun _ _ => "") (fun _ _ => some Speaker.coder)
          Speaker.initializer "go" 3 :=
  run_round_limit (fun _ _ => "") (fun _ _ => some Speaker.coder)
    Speaker.initializer "go" (fun _ _ h => Option.noConfusion h)

end Stateflow

namespace Stateflow

/-- Modelled from the spec: the Transcript operation `append(turn)`
(no Transcript class exists under `src/`).  It "accepts only turns whose
sequence_number is exactly one greater than the last accepted index" —
i.e. equal to the current length, sequence numbers starting at 0 per the
spec's "Turn 0 ... with sequence_number 0" — and "rejects out-of-order or
duplicate appends" (`none`). -/
def Transcript.append (ts : List Turn) (t : Turn) : Option (List Turn) :=
  if t.sequence_number = ts.length then some (ts ++ [t]) else none

/-- Transcripts obtainable from the empty transcript by accepted appends. -/
inductive Transcript.Built : List Turn → Prop where
  | nil : Transcript.Built []
  | snoc (ts : List Turn) (t : Turn) (ts' : List Turn) :
      Transcript.Built ts → Transcript.append ts t = some ts' →
      Transcript.Built ts'

/-- C8: `append` accepts a turn exactly when its sequence number equals
the current transcript length, and any transcript built from accepted
appends carries the sequence numbers `0, 1, ..., n-1` in order — strictly
increasing, gap-free, starting at 0. -/
theorem transcript_append_spec :
    (∀ ts t, (∃ ts', Transcript.append ts t = some ts')
      ↔ t.sequence_number = ts.length)
    ∧ ∀ ts, Transcript.Built ts →
        ts.map Turn.sequence_number = List.range ts.length := by
  constructor
  · intro ts t
    constructor
    · rintro ⟨ts', h⟩
      by_contra hne
      simp [Transcript.append, hne] at h
    · intro he
      exact ⟨ts ++ [t], by simp [Transcript.append, he]⟩
  · intro ts h
    induction h with
    | nil => rfl
    | snoc ts t ts' hb happ ih =>
      have hseq : t.sequence_number = ts.length := by
        by_contra hne
        simp [Transcript.append, hne] at happ
      have hts' : ts' = ts ++ [t] := by
        simp [Transcript.append, hseq] at happ
        exact happ.symm
      subst hts'
      simp [List.range_succ, ih, hseq]

/-- Witness for C8: a one-turn transcript built by an accepted append has
sequence numbers `[0]`. -/
theorem transcript_append_spec_witness :
    ([⟨Speaker.initializer, "", 0⟩] : List Turn).map Turn.sequence_number
      = List.range ([⟨Speaker.initializer, "", 0⟩] : List Turn).length :=
  transcript_append_spec.2 [⟨Speaker.initializer, "", 0⟩]
    (Transcript.Built.snoc [] ⟨Speaker.initializer, "", 0⟩
      [⟨Speaker.initializer, "", 0⟩] Transcript.Built.nil rfl)

end Stateflow

namespace Currency

/-- Shallow embedding of `exchange_rate(base_currency, quote_currency)`
from `agentchat_function_call_currency_calculator.py` (lines 98-109).
Python floats are modelled as exact rationals: `1.0 ↦ 1`,
`1.1 ↦ 11/10`, `1 / 1.1 ↦ 1 / (11/10)`; the `raise ValueError` branch is
the `.error` case.  Currencies stay plain strings — the `CurrencySymbol`
literal type is a hint, not a runtime check. -/
def exchange_rate (base_currency quote_currency : String) :
    Except String ℚ :=
  if base_currency = quote_currency then
    .ok 1
  else if base_currency = "USD" ∧ quote_currency = "EUR" then
    .ok (1 / (11 / 10))
  else if base_currency = "EUR" ∧ quote_currency = "USD" then
    .ok (11 / 10)
  else
    .error ("Unknown currencies " ++ base_currency ++ ", " ++ quote_currency)

/-- Shallow embedding of `currency_calculator` (lines 114-120): multiply
the base amount by the exchange rate and render `f"{quote_amount}
{quote_currency}"`; the `ValueError` from `exchange_rate` propagates. -/
def currency_calculator (base_amount : ℚ)
    (base_currency : String := "USD") (quote_currency : String := "EUR") :
    Except String String :=
  match exchange_rate base_currency quote_currency with
  | .error e => .error e
  | .ok rate => .ok (toString (rate * base_amount) ++ " " ++ quote_currency)

/-- C9: for currencies drawn from `{"USD", "EUR"}` the `ValueError`
branch of `exchange_rate` is unreachable — it returns `1` on equal
currencies, `1 / 1.1` for USD→EUR and `1.1` for EUR→USD. -/
theorem exchange_rate_total (b q : String)
    (hb : b = "USD" ∨ b = "EUR") (hq : q = "USD" ∨ q = "EUR") :
    (∃ r, exchange_rate b q = .ok r)
    ∧ (b = q → exchange_rate b q = .ok 1)
    ∧ (b = "USD" → q = "EUR" → exchange_rate b q = .ok (1 / (11 / 10)))
    ∧ (b = "EUR" → q = "USD" → exchange_rate b q = .ok (11 / 10)) := by
  rcases hb with rfl | rfl <;> rcases hq with rfl | rfl <;>
    refine ⟨⟨_, rfl⟩, ?_, ?_, ?_⟩ <;> simp [exchange_rate]

/-- Witness for C9 at the USD→EUR pair. -/
theorem exchange_rate_total_witness :
    exchange_rate "USD" "EUR" = .ok (1 / (11 / 10)) :=
  (exchange_rate_total "USD" "EUR" (Or.inl rfl) (Or.inr rfl)).2.2.1 rfl rfl

end Currency

namespace Currency.Double

/-!
Bit-accurate model of the IEEE binary64 arithmetic the Python program
performs in `exchange_rate` and `currency_calculator`.  A positive
normal double is represented exactly as `m * 2^e` with
`2^52 ≤ m < 2^53`; `roundD` is round-to-nearest, ties to even.  Every
value arising in the modelled computations is positive and normal, so
this fragment of binary64 covers them all.  The model is built on `Nat`
and `Int` arithmetic only, so concrete computations reduce.
-/

/-- Bit length of a natural number, by fuel-bounded halving (the fuel
4096 far exceeds the bit length of every number occurring here). -/
def bitsF : Nat → Nat → Nat
  | 0, _ => 0
  | f + 1, n => if n = 0 then 0 else bitsF f (n / 2) + 1

/-- Bit length of a natural number. -/
def bits (n : Nat) : Nat := bitsF 4096 n

/-- `⌊log₂ (n / d)⌋` for positive naturals `n`, `d`: the bit-length
difference, corrected down by one when `n / d < 2 ^ k`. -/
def flog2 (n d : Nat) : Int :=
  let k : Int := (bits n : Int) - (bits d : Int)
  if n * 2 ^ (-k).toNat < d * 2 ^ k.toNat then k - 1 else k

/-- A positive normal IEEE binary64 value, exactly `m * 2^e` with the
normalized mantissa `2^52 ≤ m < 2^53`. -/
structure D where
  m : Nat
  e : Int
deriving DecidableEq, Repr

/-- Round the positive rational `(n / d) * 2^e` to the nearest binary64
value, ties to even: scale into `[2^52, 2^53)`, split into integer part
and remainder, round, and renormalize if rounding overflowed the
mantissa. -/
def roundD (n d : Nat) (e : Int) : D :=
  let t : Int := 52 - flog2 n d
  let num : Nat := n * 2 ^ t.toNat
  let den : Nat := d * 2 ^ (-t).toNat
  let lo : Nat := num / den
  let rem : Nat := num % den
  let m : Nat :=
    if den < 2 * rem then lo + 1
    else if 2 * rem < den then lo
    else if lo % 2 = 0 then lo else lo + 1
  let E : Int := flog2 n d + e - 52
  if m = 2 ^ 53 then ⟨2 ^ 52, E + 1⟩ else ⟨m, E⟩

/-- Double multiplication: the exact product, correctly rounded. -/
def mulD (x y : D) : D := roundD (x.m * y.m) 1 (x.e + y.e)

/-- Double division: the exact quotient, correctly rounded. -/
def divD (x y : D) : D := roundD x.m y.m (x.e - y.e)

/-- The exact rational value of a double. -/
def toRat (x : D) : ℚ := (x.m : ℚ) * (2 : ℚ) ^ x.e

/-- The double `1.0`. -/
def one : D := roundD 1 1 0

/-- The double denoted by the source literal `1.1`. -/
def lit11 : D := roundD 11 10 0

/-- `exchange_rate` under the program's binary64 semantics: the same
branch structure as `Currency.exchange_rate`, returning the doubles the
Python program computes — `1.0`, the rounded division `1 / 1.1` (the int
1 is promoted to the double 1.0), and the double `1.1`. -/
def exchange_rate_fp (base_currency quote_currency : String) :
    Except String D :=
  if base_currency = quote_currency then
    .ok one
  else if base_currency = "USD" ∧ quote_currency = "EUR" then
    .ok (divD one lit11)
  else if base_currency = "EUR" ∧ quote_currency = "USD" then
    .ok lit11
  else
    .error ("Unknown currencies " ++ base_currency ++ ", " ++ quote_currency)

/-- The quote amount `currency_calculator` computes under binary64
semantics: `exchange_rate(base, quote) * base_amount`, a double
multiplication. -/
def quote_amount_fp (base_amount : D) (b q : String) : Except String D :=
  Except.map (fun rate => mulD rate base_amount) (exchange_rate_fp b q)

end Currency.Double

namespace Currency.Double

set_option maxRecDepth 40000 in
/-- C10 counterexample: under the program's double arithmetic the claimed
round trip fails at `base_amount = 1.1015625 = 141/128`, itself exactly
representable (`141 * 2^45 * 2^-52`): converting USD→EUR and back via the
calculator's rate multiplications returns a double one ulp above the
original amount. -/
theorem currency_round_trip_counterexample :
    roundD 141 128 0 = ⟨141 * 2 ^ 45, -52⟩
    ∧ quote_amount_fp (roundD 141 128 0) "USD" "EUR"
        = .ok (mulD (divD one lit11) (roundD 141 128 0))
    ∧ quote_amount_fp (mulD (divD one lit11) (roundD 141 128 0)) "EUR" "USD"
        = .ok (mulD lit11 (mulD (divD one lit11) (roundD 141 128 0)))
    ∧ mulD lit11 (mulD (divD one lit11) (roundD 141 128 0))
        = ⟨4960996464525313, -52⟩
    ∧ mulD lit11 (mulD (divD one lit11) (roundD 141 128 0))
        ≠ roundD 141 128 0 := by
  exact ⟨by decide, rfl, rfl, by decide, by decide⟩

set_option maxRecDepth 40000 in
/-- C10 amended: for currencies in `{"USD", "EUR"}` both rates exist and
their product, computed like the calculator's quote amounts by double
multiplication, is exactly the double `1.0` (so `1/1.1 * 1.1 == 1.0`
exactly in the program); but multiplying an arbitrary amount by the two
rates in turn does not always recover it — the per-amount round trip
fails, e.g. at `1.1015625`. -/
theorem exchange_rate_fp_round_trip (b q : String)
    (hb : b = "USD" ∨ b = "EUR") (hq : q = "USD" ∨ q = "EUR") :
    ∃ r₁ r₂ : D, exchange_rate_fp b q = .ok r₁
      ∧ exchange_rate_fp q b = .ok r₂
      ∧ mulD r₁ r₂ = one ∧ toRat (mulD r₁ r₂) = 1 := by
  have hone : toRat one = 1 := by
    have h : one = ⟨4503599627370496, -52⟩ := by decide
    rw [h]
    simp only [toRat]
    rw [zpow_neg]
    norm_num
  rcases hb with rfl | rfl <;> rcases hq with rfl | rfl
  · exact ⟨one, one, rfl, rfl, by decide,
      by rw [show mulD one one = one by decide]; exact hone⟩
  · exact ⟨divD one lit11, lit11, rfl, rfl, by decide,
      by rw [show mulD (divD one lit11) lit11 = one by decide]; exact hone⟩
  · exact ⟨lit11, divD one lit11, rfl, rfl, by decide,
      by rw [show mulD lit11 (divD one lit11) = one by decide]; exact hone⟩
  · exact ⟨one, one, rfl, rfl, by decide,
      by rw [show mulD one one = one by decide]; exact hone⟩

/-- Witness for the amended C10 at the USD→EUR→USD pair. -/
theorem exchange_rate_fp_round_trip_witness :
    ∃ r₁ r₂ : D, exchange_rate_fp "USD" "EUR" = .ok r₁
      ∧ exchange_rate_fp "EUR" "USD" = .ok r₂
      ∧ mulD r₁ r₂ = one ∧ toRat (mulD r₁ r₂) = 1 :=
  exchange_rate_fp_round_trip "USD" "EUR" (Or.inl rfl) (Or.inr rfl)

end Currency.Double
